import Mathlib

/-!
Verification of the PIN-entry control (`src/components/ui/PinPad.tsx`).

The component is a controlled input: the digit buffer (`value`) is owned by
the caller and every mutation is requested through caller-supplied callbacks
(`onChange`, `onSubmit`, `onClearError`) or global actions
(`clearIsPinAccepted`).  We embed:

* the synchronous press handlers `handleClick` / `handleBackspaceClick`
  (source lines 123-147), as pure functions from props to the list of
  callback invocations they perform;
* the derived render-time flags `isSuccess`, `canRenderBackspace`,
  `arePinButtonsDisabled` (lines 61-66) and the per-button `isDisabled`
  wiring of the grid (lines 179-200);
* the three effect hooks the claims are about — the accepted-edge effect
  (lines 74-78), the unmount effect (lines 80-85) and the error-timer effect
  (lines 97-111) — as an explicit event machine over renders, timer firings
  and unmount.

The effect-scheduling semantics (an effect body runs on mount and whenever
its dependency list changes between renders, its previous cleanup running
first; cleanups run on unmount) and the `usePrevious` hook (returns the
previous render's value) belong to the repository's own framework
(`lib/teact`, `hooks/`), which is not part of the sources here; they are
modelled from the spec (§5 "Concurrency & resource model", §3
"PrevAcceptedSnapshot").  Likewise `PinPadButton` is modelled from the spec
as not invoking its `onClick` while `isDisabled` ("disable all
digit/backspace input", "input fully gated").

JS strings of typed digits are embedded as `List Char`: `value.slice(0, -1)`
is `List.dropLast`, string append of one character is `· ++ [c]`, and
`onChange(char)` passes the one-element buffer `[c]`.  Callback identities
(relevant only for dependency-list comparison) are embedded as `Nat` tokens;
an absent optional callback is `none`.
-/

namespace PinPad

/-- The `type` prop: `'error' | 'success'` (absence is `Option.none`). -/
inductive PinType
  | error
  | success
deriving DecidableEq, Repr

/-- Source line 41: `const DEFAULT_PIN_LENGTH = 4`. -/
def DEFAULT_PIN_LENGTH : Nat := 4

/-- Source line 42: `const RESET_STATE_DELAY_MS = 1500`. -/
def RESET_STATE_DELAY_MS : Nat := 1500

/-- The props of one render of `PinPad` (the fields the state machine
reads).  `lengthOpt` and `resetStateDelayMsOpt` are the raw optional props;
the destructuring defaults of source lines 49-50 are applied by
`Props.length` / `Props.resetStateDelayMs`.  `onChangeId` is the identity of
the caller's `onChange`; `onClearErrorId` is `none` when the optional
`onClearError` prop is absent. -/
structure Props where
  type : Option PinType
  value : List Char
  lengthOpt : Option Nat
  resetStateDelayMsOpt : Option Nat
  isPinAccepted : Bool
  onChangeId : Nat
  onClearErrorId : Option Nat
  onBiometricsPresent : Bool
deriving DecidableEq, Repr

/-- Source line 50: `length = DEFAULT_PIN_LENGTH`. -/
def Props.length (p : Props) : Nat := p.lengthOpt.getD DEFAULT_PIN_LENGTH

/-- Source line 49: `resetStateDelayMs = RESET_STATE_DELAY_MS`. -/
def Props.resetStateDelayMs (p : Props) : Nat :=
  p.resetStateDelayMsOpt.getD RESET_STATE_DELAY_MS

/-- Source line 63: `const isSuccess = type === 'success' || isPinAccepted`. -/
def isSuccess (p : Props) : Bool :=
  decide (p.type = some PinType.success) || p.isPinAccepted

/-- Source line 62: `const canRenderBackspace = value.length > 0`. -/
def canRenderBackspace (p : Props) : Bool :=
  decide (0 < p.value.length)

/-- Source lines 65-66: `const arePinButtonsDisabled = isSuccess ||
(value.length === length && type !== 'error')`. -/
def arePinButtonsDisabled (p : Props) : Bool :=
  isSuccess p
    || (decide (p.value.length = p.length) && decide (p.type ≠ some PinType.error))

/-- Source line 196: the backspace button's `isDisabled` expression
`!canRenderBackspace || isSuccess`. -/
def backspaceButtonDisabled (p : Props) : Bool :=
  !canRenderBackspace p || isSuccess p

/-- Source line 189: the biometric button's `isDisabled` expression
`isSuccess`. -/
def biometricButtonDisabled (p : Props) : Bool :=
  isSuccess p

/-- One invocation of a caller-supplied callback or external action
performed by the control. -/
inductive Call
  | change (v : List Char)
  | submit (v : List Char)
  | clearError
  | clearIsPinAccepted
  | vibrateOnError
  | biometric
deriving DecidableEq, Repr

/-- `onClearError?.()`: invokes the callback only when the optional prop is
present. -/
def clearErrorCalls (p : Props) : List Call :=
  if p.onClearErrorId.isSome then [Call.clearError] else []

/-- Source lines 123-140 (`handleClick`): the list of callback invocations
a digit press performs, in order. -/
def handleClick (p : Props) (char : Char) : List Call :=
  (if p.value.length = p.length ∨ p.value.length = 0 then clearErrorCalls p else [])
    ++
  if p.value.length = p.length then
    [Call.change [char]]
  else
    let newValue := p.value ++ [char]
    [Call.change newValue]
      ++ (if newValue.length = p.length then [Call.submit newValue] else [])

/-- Source lines 142-147 (`handleBackspaceClick`): the list of callback
invocations a backspace press performs, in order. -/
def handleBackspaceClick (p : Props) : List Call :=
  clearErrorCalls p
    ++ if p.value.length = 0 then [] else [Call.change p.value.dropLast]

/-- Modelled from the spec: `PinPadButton` (component not under the given
sources) does not invoke its `onClick` while `isDisabled` ("input fully
gated").  A press of a digit button (lines 179-193) therefore reaches
`handleClick` only when `arePinButtonsDisabled` is false. -/
def pressDigit (p : Props) (char : Char) : List Call :=
  if arePinButtonsDisabled p then [] else handleClick p char

/-- Modelled from the spec: a press of the backspace button (lines 194-200)
reaches `handleBackspaceClick` only when its `isDisabled` expression is
false. -/
def pressBackspace (p : Props) : List Call :=
  if backspaceButtonDisabled p then [] else handleBackspaceClick p

/-- Modelled from the spec: the biometric button (lines 188-192) exists only
when `onBiometricsClick` is provided and invokes it only while not
`isDisabled`. -/
def pressBiometric (p : Props) : List Call :=
  if p.onBiometricsPresent then
    if biometricButtonDisabled p then [] else [Call.biometric]
  else []

/-- The controlled-buffer convention (spec §2): the caller applies each
`onChange(v)` request by replacing the whole buffer with `v`.  Folding the
emitted calls over a buffer yields the buffer after the caller has processed
them. -/
def applyCalls (value : List Char) (calls : List Call) : List Char :=
  calls.foldl (fun v c => match c with | Call.change v2 => v2 | _ => v) value

/-- One processed digit press followed by the caller applying the requested
buffer replacement (all other props held fixed). -/
def stepDigit (p : Props) (c : Char) : Props :=
  { p with value := applyCalls p.value (handleClick p c) }

/-- A whole sequence of processed digit presses. -/
def runPresses (p : Props) (cs : List Char) : Props :=
  cs.foldl stepDigit p

/-- Dependency list of the accepted-edge effect, source line 78:
`[isPinAccepted, length, onChange, prevIsPinAccepted, value.length]`. -/
structure DepsA where
  isPinAccepted : Bool
  length : Nat
  onChangeId : Nat
  prevIsPinAccepted : Option Bool
  valueLength : Nat
deriving DecidableEq, Repr

/-- Dependency list of the error-timer effect, source line 111:
`[length, onChange, onClearError, resetStateDelayMs, type, value.length]`. -/
structure DepsD where
  length : Nat
  onChangeId : Nat
  onClearErrorId : Option Nat
  resetStateDelayMs : Nat
  type : Option PinType
  valueLength : Nat
deriving DecidableEq, Repr

/-- An armed `window.setTimeout` from the error-timer effect: its handle,
its delay, and the values captured by the closure of source lines 100-105. -/
structure Timer where
  id : Nat
  delay : Nat
  valueLength : Nat
  length : Nat
  onClearErrorPresent : Bool
deriving DecidableEq, Repr

/-- Runtime state of one mounted `PinPad` instance: the `usePrevious` ref,
the stored dependency lists of the two effects, the timer handle the
error-timer effect's cleanup would clear, and the set of armed timers.
`nextId` is the next fresh `setTimeout` handle. -/
structure CState where
  prevAccepted : Option Bool
  prevDepsA : Option DepsA
  prevDepsD : Option DepsD
  cleanupD : Option Nat
  timers : List Timer
  nextId : Nat
deriving DecidableEq, Repr

/-- State before the first render of an instance. -/
def initState : CState := ⟨none, none, none, none, [], 0⟩

/-- The accepted-edge effect's dependency values at a render.
`usePrevious(isPinAccepted)` returns the previous render's value, i.e. the
stored `prevAccepted`. -/
def depsA (s : CState) (p : Props) : DepsA :=
  ⟨p.isPinAccepted, p.length, p.onChangeId, s.prevAccepted, p.value.length⟩

/-- The error-timer effect's dependency values at a render. -/
def depsD (p : Props) : DepsD :=
  ⟨p.length, p.onChangeId, p.onClearErrorId, p.resetStateDelayMs, p.type,
    p.value.length⟩

/-- Body of the accepted-edge effect, source lines 74-78:
`if (prevIsPinAccepted && !isPinAccepted && length === value.length)
 onChange('')`. -/
def effectABody (s : CState) (p : Props) : List Call :=
  if s.prevAccepted = some true ∧ p.isPinAccepted = false
      ∧ p.length = p.value.length then
    [Call.change []]
  else []

/-- `window.clearTimeout`: cancelling a handle removes the armed timer with
that handle (a no-op when none is armed). -/
def clearTimeout (timers : List Timer) : Option Nat → List Timer
  | none => timers
  | some tid => timers.filter (fun t => t.id != tid)

/-- The timer armed by the error-timer effect's body at a render, source
lines 100-105: delay `resetStateDelayMs`, closure capturing `value.length`,
`length` and whether `onClearError` is present. -/
def timerOfRender (s : CState) (p : Props) : Timer :=
  ⟨s.nextId, p.resetStateDelayMs, p.value.length, p.length,
    p.onClearErrorId.isSome⟩

/-- Result of re-evaluating the error-timer effect at a render. -/
structure DUpd where
  timers : List Timer
  cleanupD : Option Nat
  nextId : Nat
  calls : List Call
deriving DecidableEq, Repr

/-- The error-timer effect, source lines 97-111, under the modelled effect
semantics: skipped when the dependency list is unchanged; otherwise the
previous cleanup (`clearTimeout`, line 109) runs first, then the body: when
`type !== 'error'` it returns without arming (line 98, registering no
cleanup), else it arms one timer and fires `vibrateOnError` (lines 100-106),
registering a cleanup for the new handle. -/
def effectDUpdate (s : CState) (p : Props) : DUpd :=
  if s.prevDepsD = some (depsD p) then
    ⟨s.timers, s.cleanupD, s.nextId, []⟩
  else
    let afterCleanup := clearTimeout s.timers s.cleanupD
    if p.type = some PinType.error then
      ⟨afterCleanup ++ [timerOfRender s p], some s.nextId, s.nextId + 1,
        [Call.vibrateOnError]⟩
    else
      ⟨afterCleanup, none, s.nextId, []⟩

/-- One render of the component with props `p`: each effect whose
dependency list changed runs (previous cleanup first, then body), in source
order; the `usePrevious` ref is updated to this render's `isPinAccepted`.
Returns the new state and the calls emitted during the render. -/
def stepRender (s : CState) (p : Props) : CState × List Call :=
  let callsA := if s.prevDepsA = some (depsA s p) then [] else effectABody s p
  let u := effectDUpdate s p
  (⟨some p.isPinAccepted, some (depsA s p), some (depsD p),
     u.cleanupD, u.timers, u.nextId⟩,
   callsA ++ u.calls)

/-- The calls performed by the timer callback of source lines 100-105 once
it fires: `if (value.length === length) onChange('')`, then
`onClearError?.()`, each over the values captured at arming time. -/
def fireCalls (t : Timer) : List Call :=
  (if t.valueLength = t.length then [Call.change []] else [])
    ++ (if t.onClearErrorPresent then [Call.clearError] else [])

/-- An armed timer with handle `tid` fires: it is disarmed and its callback
runs.  A cancelled (no longer armed) handle never fires. -/
def stepFire (s : CState) (tid : Nat) : CState × List Call :=
  match s.timers.find? (fun t => t.id == tid) with
  | some t =>
    ({ s with timers := s.timers.filter (fun t2 => t2.id != tid) }, fireCalls t)
  | none => (s, [])

/-- Unmount: every effect's cleanup runs, in source order — the unmount
effect's cleanup invokes `clearIsPinAccepted` (lines 80-85) and the
error-timer effect's cleanup clears the pending handle (lines 108-110).
The per-instance hook state dies with the instance. -/
def stepUnmount (s : CState) : CState × List Call :=
  (⟨none, none, none, none, clearTimeout s.timers s.cleanupD, s.nextId⟩,
   [Call.clearIsPinAccepted])

/-- An externally observable event in the life of an instance. -/
inductive Event
  | render (p : Props)
  | fire (tid : Nat)
  | unmount
deriving Repr

/-- Event dispatch. -/
def step (s : CState) (e : Event) : CState × List Call :=
  match e with
  | Event.render p => stepRender s p
  | Event.fire tid => stepFire s tid
  | Event.unmount => stepUnmount s

/-- Run a sequence of events, collecting all emitted calls in order. -/
def run (s : CState) (evs : List Event) : CState × List Call :=
  match evs with
  | [] => (s, [])
  | e :: rest =>
    let r1 := step s e
    let r2 := run r1.1 rest
    (r2.1, r1.2 ++ r2.2)

/-- Does a call invoke `onSubmit`? -/
def isSubmitCall : Call → Bool
  | Call.submit _ => true
  | _ => false

/-- Machine invariant: timer handles the component has handed out are below
`nextId`; at most one timer is armed, and an armed timer is exactly the one
the error-timer effect's registered cleanup would clear; whenever the last
run of the error-timer effect saw `type !== 'error'` (or the effect never
ran), no timer is armed and no cleanup is registered. -/
def Inv (s : CState) : Prop :=
  (∀ tid, s.cleanupD = some tid → tid < s.nextId)
    ∧ (s.timers = [] ∨ ∃ t, s.timers = [t] ∧ s.cleanupD = some t.id ∧ t.id < s.nextId)
    ∧ (∀ d, s.prevDepsD = some d → d.type ≠ some PinType.error →
        s.timers = [] ∧ s.cleanupD = none)
    ∧ (s.prevDepsD = none → s.timers = [] ∧ s.cleanupD = none)

/-! ### Basic facts about the press handlers -/

theorem applyCalls_append (v : List Char) (l1 l2 : List Call) :
    applyCalls v (l1 ++ l2) = applyCalls (applyCalls v l1) l2 := by
  simp [applyCalls, List.foldl_append]

theorem applyCalls_clearErrorCalls (v : List Char) (p : Props) :
    applyCalls v (clearErrorCalls p) = v := by
  unfold clearErrorCalls
  split <;> simp [applyCalls]

theorem handleClick_full (p : Props) (c : Char) (h : p.value.length = p.length) :
    handleClick p c = clearErrorCalls p ++ [Call.change [c]] := by
  simp [handleClick, h]

theorem handleClick_notfull (p : Props) (c : Char) (h : ¬ p.value.length = p.length) :
    handleClick p c =
      (if p.value.length = 0 then clearErrorCalls p else [])
        ++ ([Call.change (p.value ++ [c])]
          ++ (if p.value.length + 1 = p.length then [Call.submit (p.value ++ [c])] else [])) := by
  simp [handleClick, h]

theorem applyCalls_handleClick (p : Props) (c : Char) :
    applyCalls p.value (handleClick p c)
      = if p.value.length = p.length then [c] else p.value ++ [c] := by
  by_cases h : p.value.length = p.length
  · simp [handleClick_full p c h, h, applyCalls_append, applyCalls_clearErrorCalls, applyCalls]
  · rw [handleClick_notfull p c h]
    simp only [if_neg h, applyCalls_append]
    split <;> split <;>
      simp [applyCalls_clearErrorCalls, applyCalls]

theorem stepDigit_value (p : Props) (c : Char) :
    (stepDigit p c).value
      = if p.value.length = p.length then [c] else p.value ++ [c] := by
  simp [stepDigit, applyCalls_handleClick]

theorem stepDigit_length (p : Props) (c : Char) :
    (stepDigit p c).length = p.length := rfl

theorem stepDigit_length_le (p : Props) (c : Char) (h1 : 1 ≤ p.length)
    (h2 : p.value.length ≤ p.length) :
    (stepDigit p c).value.length ≤ p.length := by
  rw [stepDigit_value]
  split
  · simpa using h1
  · rename_i h
    have : p.value.length < p.length := lt_of_le_of_ne h2 h
    simp only [List.length_append, List.length_cons, List.length_nil]
    omega

theorem runPresses_bound (p : Props) (cs : List Char) (h1 : 1 ≤ p.length)
    (h2 : p.value.length ≤ p.length) :
    (runPresses p cs).value.length ≤ p.length := by
  induction cs generalizing p with
  | nil => simpa [runPresses] using h2
  | cons c rest ih =>
    have hstep : runPresses p (c :: rest) = runPresses (stepDigit p c) rest := by
      simp [runPresses]
    rw [hstep]
    have hlen : (stepDigit p c).length = p.length := stepDigit_length p c
    have := ih (stepDigit p c) (by rw [hlen]; exact h1)
      (by rw [hlen]; exact stepDigit_length_le p c h1 h2)
    rwa [hlen] at this

/-! ### The event machine never invokes `onSubmit` -/

theorem submit_not_mem_effectABody (s : CState) (p : Props) (v : List Char) :
    Call.submit v ∉ effectABody s p := by
  unfold effectABody
  split <;> simp

theorem submit_not_mem_stepRender (s : CState) (p : Props) (v : List Char) :
    Call.submit v ∉ (stepRender s p).2 := by
  unfold stepRender effectDUpdate
  intro hmem
  rcases List.mem_append.mp hmem with h | h
  · revert h
    split
    · simp
    · exact submit_not_mem_effectABody s p v
  · revert h
    split
    · simp
    · split <;> simp

theorem submit_not_mem_step (s : CState) (e : Event) (v : List Char) :
    Call.submit v ∉ (step s e).2 := by
  cases e with
  | render p => exact submit_not_mem_stepRender s p v
  | fire tid =>
    show Call.submit v ∉ (stepFire s tid).2
    unfold stepFire
    split
    · rename_i t _
      unfold fireCalls
      split <;> split <;> simp
    · simp
  | unmount => simp [step, stepUnmount]

theorem submit_not_mem_run (s : CState) (evs : List Event) (v : List Char) :
    Call.submit v ∉ (run s evs).2 := by
  induction evs generalizing s with
  | nil => simp [run]
  | cons e rest ih =>
    simp only [run, List.mem_append]
    push_neg
    exact ⟨submit_not_mem_step s e v, ih (step s e).1⟩

/-! ### Claims C1 and C2 -/

/-- Claim C1: a processed digit press emits `onSubmit` exactly when it
extends the buffer from length `N - 1` to length `N` (the full-buffer
replace branch never submits); the submitted string is the full
`N`-character buffer; and no render, timer firing or unmount ever invokes
`onSubmit`, so re-rendering with an already-full buffer cannot re-fire it. -/
theorem submit_policy (p : Props) (c : Char) :
    ((handleClick p c).filter isSubmitCall
        = if p.value.length + 1 = p.length then [Call.submit (p.value ++ [c])] else [])
    ∧ (∀ v, Call.submit v ∈ handleClick p c →
        v = p.value ++ [c] ∧ v.length = p.length)
    ∧ (∀ (s : CState) (evs : List Event) (v : List Char),
        Call.submit v ∉ (run s evs).2) := by
  refine ⟨?_, ?_, fun s evs v => submit_not_mem_run s evs v⟩
  · by_cases h : p.value.length = p.length
    · rw [handleClick_full p c h]
      have : ¬ p.value.length + 1 = p.length := by omega
      rw [if_neg this]
      unfold clearErrorCalls
      split <;> simp [isSubmitCall]
    · rw [handleClick_notfull p c h]
      simp only [List.filter_append]
      unfold clearErrorCalls
      by_cases h0 : p.value.length = 0 <;>
        by_cases hs : p.onClearErrorId.isSome <;>
        by_cases hn : p.value.length + 1 = p.length <;>
        simp_all [isSubmitCall]
  · intro v hv
    by_cases h : p.value.length = p.length
    · rw [handleClick_full p c h] at hv
      revert hv
      unfold clearErrorCalls
      split <;> simp
    · rw [handleClick_notfull p c h] at hv
      rcases List.mem_append.mp hv with h1 | h1
      · revert h1
        split <;> [skip; simp]
        unfold clearErrorCalls
        split <;> simp
      · rcases List.mem_append.mp h1 with h2 | h2
        · simp at h2
        · revert h2
          split
          · rename_i hlen
            intro h2
            simp at h2
            refine ⟨h2, ?_⟩
            rw [h2]
            simp only [List.length_append, List.length_cons, List.length_nil]
            omega
          · simp

/-- Witness for C1 at `value = "123"`, `length = 4`, pressing `'4'`. -/
theorem submit_policy_witness :
    ((handleClick ⟨none, ['1', '2', '3'], some 4, none, false, 0, none, false⟩ '4').filter isSubmitCall
        = [Call.submit ['1', '2', '3', '4']])
    ∧ (['1', '2', '3', '4'] = ['1', '2', '3'] ++ ['4']
        ∧ (['1', '2', '3', '4'] : List Char).length
            = Props.length ⟨none, ['1', '2', '3'], some 4, none, false, 0, none, false⟩) := by
  refine ⟨?_, ?_⟩
  · have h := (submit_policy ⟨none, ['1', '2', '3'], some 4, none, false, 0, none, false⟩ '4').1
    simpa using h
  · exact (submit_policy ⟨none, ['1', '2', '3'], some 4, none, false, 0, none, false⟩ '4').2.1
      ['1', '2', '3', '4'] (by decide)

/-- Claim C2: starting from a buffer within the configured bound (spec data
model: `CodeBuffer` has length `0..N`, `N ≥ 1`), no sequence of processed
digit presses ever takes the buffer length above `N`; a digit press
processed while the buffer is full replaces the whole buffer with the
single new digit and emits no `onSubmit`. -/
theorem buffer_bound (p : Props) (cs : List Char) (c : Char)
    (h1 : 1 ≤ p.length) (h2 : p.value.length ≤ p.length) :
    (runPresses p cs).value.length ≤ p.length
    ∧ (p.value.length = p.length →
        applyCalls p.value (handleClick p c) = [c]
        ∧ ∀ v, Call.submit v ∉ handleClick p c) := by
  refine ⟨runPresses_bound p cs h1 h2, fun hfull => ⟨?_, ?_⟩⟩
  · rw [applyCalls_handleClick, if_pos hfull]
  · intro v
    rw [handleClick_full p c hfull]
    unfold clearErrorCalls
    split <;> simp

/-- Witness for C2: `length = 4`, full buffer `"1234"`, then presses
`"9", "8"`. -/
theorem buffer_bound_witness :
    (runPresses ⟨none, ['1', '2', '3', '4'], some 4, none, false, 0, some 0, false⟩
        ['9', '8']).value.length
      ≤ Props.length ⟨none, ['1', '2', '3', '4'], some 4, none, false, 0, some 0, false⟩
    ∧ applyCalls ['1', '2', '3', '4']
        (handleClick ⟨none, ['1', '2', '3', '4'], some 4, none, false, 0, some 0, false⟩ '9')
      = ['9'] := by
  refine ⟨(buffer_bound ⟨none, ['1', '2', '3', '4'], some 4, none, false, 0, some 0, false⟩
      ['9', '8'] '9' (by decide) (by decide)).1, ?_⟩
  exact ((buffer_bound ⟨none, ['1', '2', '3', '4'], some 4, none, false, 0, some 0, false⟩
      ['9', '8'] '9' (by decide) (by decide)).2 (by decide)).1

/-! ### Shape lemmas for one render of the effect machine -/

theorem vibrate_not_mem_effectABody (s : CState) (p : Props) :
    Call.vibrateOnError ∉ effectABody s p := by
  unfold effectABody
  split <;> simp

theorem stepRender_prevDepsD (s : CState) (p : Props) :
    (stepRender s p).1.prevDepsD = some (depsD p) := rfl

theorem stepRender_unchangedD (s : CState) (p : Props)
    (hd : s.prevDepsD = some (depsD p)) :
    (stepRender s p).1.timers = s.timers
    ∧ (stepRender s p).1.cleanupD = s.cleanupD
    ∧ (stepRender s p).1.nextId = s.nextId
    ∧ Call.vibrateOnError ∉ (stepRender s p).2 := by
  refine ⟨by simp [stepRender, effectDUpdate, hd], by simp [stepRender, effectDUpdate, hd],
    by simp [stepRender, effectDUpdate, hd], ?_⟩
  intro hmem
  simp only [stepRender, effectDUpdate, if_pos hd] at hmem
  rcases List.mem_append.mp hmem with hmem | hmem
  · revert hmem
    split
    · simp
    · exact vibrate_not_mem_effectABody s p
  · simp at hmem

theorem stepRender_toError (s : CState) (p : Props)
    (hd : ¬ s.prevDepsD = some (depsD p)) (hty : p.type = some PinType.error) :
    (stepRender s p).1.timers = clearTimeout s.timers s.cleanupD ++ [timerOfRender s p]
    ∧ (stepRender s p).1.cleanupD = some s.nextId
    ∧ (stepRender s p).1.nextId = s.nextId + 1
    ∧ (stepRender s p).2
        = (if s.prevDepsA = some (depsA s p) then [] else effectABody s p)
          ++ [Call.vibrateOnError] := by
  refine ⟨?_, ?_, ?_, ?_⟩ <;> simp [stepRender, effectDUpdate, hd, hty]

theorem stepRender_offError (s : CState) (p : Props)
    (hd : ¬ s.prevDepsD = some (depsD p)) (hty : ¬ p.type = some PinType.error) :
    (stepRender s p).1.timers = clearTimeout s.timers s.cleanupD
    ∧ (stepRender s p).1.cleanupD = none
    ∧ (stepRender s p).1.nextId = s.nextId
    ∧ (stepRender s p).2
        = (if s.prevDepsA = some (depsA s p) then [] else effectABody s p) := by
  refine ⟨?_, ?_, ?_, ?_⟩ <;> simp [stepRender, effectDUpdate, hd, hty]

/-! ### Preservation of the machine invariant -/

theorem inv_init : Inv initState := by
  refine ⟨?_, Or.inl rfl, ?_, fun _ => ⟨rfl, rfl⟩⟩ <;> simp [initState]

theorem clearTimeout_of_inv (s : CState) (h : Inv s) :
    clearTimeout s.timers s.cleanupD = [] := by
  rcases h.2.1 with h0 | ⟨t, ht, hc, _⟩
  · rw [h0]
    cases s.cleanupD <;> simp [clearTimeout]
  · rw [ht, hc]
    simp [clearTimeout]

theorem inv_stepRender (s : CState) (p : Props) (h : Inv s) :
    Inv (stepRender s p).1 := by
  by_cases hd : s.prevDepsD = some (depsD p)
  · obtain ⟨htm, hcl, hni, _⟩ := stepRender_unchangedD s p hd
    refine ⟨?_, ?_, ?_, ?_⟩
    · intro tid htid
      rw [hcl] at htid
      rw [hni]
      exact h.1 tid htid
    · rw [htm, hcl, hni]
      exact h.2.1
    · intro d hd2 hty
      rw [stepRender_prevDepsD] at hd2
      rw [htm, hcl]
      exact h.2.2.1 d (by rw [hd, ← hd2]) hty
    · intro hnone
      rw [stepRender_prevDepsD] at hnone
      exact absurd hnone (by simp)
  · by_cases hty : p.type = some PinType.error
    · obtain ⟨htm, hcl, hni, _⟩ := stepRender_toError s p hd hty
      have htm2 : (stepRender s p).1.timers = [timerOfRender s p] := by
        rw [htm, clearTimeout_of_inv s h, List.nil_append]
      refine ⟨?_, ?_, ?_, ?_⟩
      · intro tid htid
        rw [hcl] at htid
        rw [hni]
        cases htid
        omega
      · refine Or.inr ⟨timerOfRender s p, htm2, ?_, ?_⟩
        · rw [hcl]
          rfl
        · rw [hni]
          show s.nextId < s.nextId + 1
          omega
      · intro d hd2 hty2
        rw [stepRender_prevDepsD] at hd2
        cases hd2
        exact absurd hty hty2
      · intro hnone
        rw [stepRender_prevDepsD] at hnone
        exact absurd hnone (by simp)
    · obtain ⟨htm, hcl, hni, _⟩ := stepRender_offError s p hd hty
      have htm2 : (stepRender s p).1.timers = [] := by
        rw [htm, clearTimeout_of_inv s h]
      refine ⟨?_, ?_, ?_, ?_⟩
      · intro tid htid
        rw [hcl] at htid
        exact absurd htid (by simp)
      · exact Or.inl htm2
      · exact fun d _ _ => ⟨htm2, hcl⟩
      · intro hnone
        rw [stepRender_prevDepsD] at hnone
        exact absurd hnone (by simp)

theorem inv_stepFire (s : CState) (tid : Nat) (h : Inv s) :
    Inv (stepFire s tid).1 := by
  unfold stepFire
  split
  · rename_i t hfind
    rcases h.2.1 with h0 | ⟨t1, ht1, hc1, hlt1⟩
    · rw [h0] at hfind
      simp [List.find?] at hfind
    · rw [ht1] at hfind
      have hid : t1.id = tid := by
        by_cases hb : t1.id == tid
        · simpa using hb
        · simp [List.find?, hb] at hfind
      have hfilter : s.timers.filter (fun t2 => t2.id != tid) = [] := by
        rw [ht1]
        simp [List.filter, hid]
      refine ⟨h.1, Or.inl hfilter, ?_, ?_⟩
      · intro d hd2 hty2
        have := (h.2.2.1 d hd2 hty2).1
        rw [ht1] at this
        exact absurd this (by simp)
      · intro hnone
        have := (h.2.2.2 hnone).1
        rw [ht1] at this
        exact absurd this (by simp)
  · exact h

theorem inv_stepUnmount (s : CState) (h : Inv s) :
    Inv (stepUnmount s).1 := by
  refine ⟨?_, Or.inl (clearTimeout_of_inv s h), ?_, ?_⟩
  · intro tid htid
    exact absurd htid (by simp [stepUnmount])
  · intro d hd2
    exact absurd hd2 (by simp [stepUnmount])
  · exact fun _ => ⟨clearTimeout_of_inv s h, rfl⟩

theorem inv_step (s : CState) (e : Event) (h : Inv s) : Inv (step s e).1 := by
  cases e with
  | render p => exact inv_stepRender s p h
  | fire tid => exact inv_stepFire s tid h
  | unmount => exact inv_stepUnmount s h

theorem inv_run (s : CState) (evs : List Event) (h : Inv s) :
    Inv (run s evs).1 := by
  induction evs generalizing s with
  | nil => exact h
  | cons e rest ih => exact ih (step s e).1 (inv_step s e h)

theorem inv_reachable (evs : List Event) : Inv (run initState evs).1 :=
  inv_run initState evs inv_init

theorem mem_clearTimeout_ne (l : List Timer) (tid : Nat) (t : Timer)
    (h : t ∈ clearTimeout l (some tid)) : t.id ≠ tid := by
  unfold clearTimeout at h
  have := (List.mem_filter.mp h).2
  simpa using this

/-! ### Claim C3 -/

/-- Claim C3 counterexample: two consecutive renders, both with
`type = 'error'`, agreeing on the buffer length, `onChange`, `onClearError`
and the delay — every dependency the claim lists — but differing in the
configured `length` prop (also in the effect's dependency list, source line
111).  The second render cancels the first timer and arms a brand-new one
(handle 1 instead of 0), so the re-render does re-arm despite the listed
dependencies being unchanged. -/
theorem timer_idempotence_counterexample :
    ((Props.mk (some PinType.error) ['1', '1', '1', '1'] (some 4) (some 100) false 0 (some 0) false).value.length
        = (Props.mk (some PinType.error) ['1', '1', '1', '1'] (some 5) (some 100) false 0 (some 0) false).value.length
      ∧ (Props.mk (some PinType.error) ['1', '1', '1', '1'] (some 4) (some 100) false 0 (some 0) false).onChangeId
        = (Props.mk (some PinType.error) ['1', '1', '1', '1'] (some 5) (some 100) false 0 (some 0) false).onChangeId
      ∧ (Props.mk (some PinType.error) ['1', '1', '1', '1'] (some 4) (some 100) false 0 (some 0) false).onClearErrorId
        = (Props.mk (some PinType.error) ['1', '1', '1', '1'] (some 5) (some 100) false 0 (some 0) false).onClearErrorId
      ∧ (Props.mk (some PinType.error) ['1', '1', '1', '1'] (some 4) (some 100) false 0 (some 0) false).resetStateDelayMs
        = (Props.mk (some PinType.error) ['1', '1', '1', '1'] (some 5) (some 100) false 0 (some 0) false).resetStateDelayMs
      ∧ (Props.mk (some PinType.error) ['1', '1', '1', '1'] (some 4) (some 100) false 0 (some 0) false).type
        = some PinType.error
      ∧ (Props.mk (some PinType.error) ['1', '1', '1', '1'] (some 5) (some 100) false 0 (some 0) false).type
        = some PinType.error)
    ∧ (run initState
        [Event.render (Props.mk (some PinType.error) ['1', '1', '1', '1'] (some 4) (some 100) false 0 (some 0) false)]).1.timers
      = [Timer.mk 0 100 4 4 true]
    ∧ (run initState
        [Event.render (Props.mk (some PinType.error) ['1', '1', '1', '1'] (some 4) (some 100) false 0 (some 0) false),
         Event.render (Props.mk (some PinType.error) ['1', '1', '1', '1'] (some 5) (some 100) false 0 (some 0) false)]).1.timers
      = [Timer.mk 1 100 4 5 true] := by
  decide

/-- Claim C3 (amended): at every instant at most one error-auto-clear timer
is armed; a re-render while `type` remains `'error'` with the buffer length,
`onChange`, `onClearError`, the delay AND the configured `length` all
unchanged leaves the armed timer untouched (no re-arm, no haptic); and
whenever any of these dependencies changes, the previously armed timer is
cancelled before a new one is considered. -/
theorem timer_single_and_idempotent :
    (∀ evs : List Event, (run initState evs).1.timers.length ≤ 1)
    ∧ (∀ (evs : List Event) (p : Props),
        (run initState evs).1.prevDepsD = some (depsD p) →
        p.type = some PinType.error →
        (stepRender (run initState evs).1 p).1.timers = (run initState evs).1.timers
        ∧ (stepRender (run initState evs).1 p).1.nextId = (run initState evs).1.nextId
        ∧ Call.vibrateOnError ∉ (stepRender (run initState evs).1 p).2)
    ∧ (∀ (evs : List Event) (p : Props) (tid : Nat),
        ¬ (run initState evs).1.prevDepsD = some (depsD p) →
        (run initState evs).1.cleanupD = some tid →
        ∀ t ∈ (stepRender (run initState evs).1 p).1.timers, t.id ≠ tid) := by
  refine ⟨?_, ?_, ?_⟩
  · intro evs
    rcases (inv_reachable evs).2.1 with h0 | ⟨t, ht, _, _⟩
    · simp [h0]
    · simp [ht]
  · intro evs p hd hty
    obtain ⟨h1, h2, h3, h4⟩ := stepRender_unchangedD (run initState evs).1 p hd
    exact ⟨h1, h3, h4⟩
  · intro evs p tid hd hcl t hmem
    have hinv := inv_reachable evs
    have hlt : tid < (run initState evs).1.nextId := hinv.1 tid hcl
    by_cases hty : p.type = some PinType.error
    · obtain ⟨htm, _, _, _⟩ := stepRender_toError (run initState evs).1 p hd hty
      rw [htm] at hmem
      rcases List.mem_append.mp hmem with hm | hm

      · rw [hcl] at hm
        exact mem_clearTimeout_ne _ tid t hm
      · have : t = timerOfRender (run initState evs).1 p := by simpa using hm
        rw [this]
        show (run initState evs).1.nextId ≠ tid
        omega
    · obtain ⟨htm, _, _, _⟩ := stepRender_offError (run initState evs).1 p hd hty
      rw [htm, hcl] at hmem
      exact mem_clearTimeout_ne _ tid t hmem

/-- Witness for (amended) C3: after a render in error mode, re-rendering
with identical props leaves the armed timer untouched and fires no haptic. -/
theorem timer_single_and_idempotent_witness :
    (stepRender
        (run initState [Event.render (Props.mk (some PinType.error) ['7'] (some 4) none false 0 none false)]).1
        (Props.mk (some PinType.error) ['7'] (some 4) none false 0 none false)).1.timers
      = (run initState [Event.render (Props.mk (some PinType.error) ['7'] (some 4) none false 0 none false)]).1.timers
    ∧ Call.vibrateOnError ∉
        (stepRender
          (run initState [Event.render (Props.mk (some PinType.error) ['7'] (some 4) none false 0 none false)]).1
          (Props.mk (some PinType.error) ['7'] (some 4) none false 0 none false)).2 := by
  refine ⟨?_, ?_⟩
  · exact (timer_single_and_idempotent.2.1
      [Event.render (Props.mk (some PinType.error) ['7'] (some 4) none false 0 none false)]
      (Props.mk (some PinType.error) ['7'] (some 4) none false 0 none false)
      (by decide) (by decide)).1
  · exact (timer_single_and_idempotent.2.1
      [Event.render (Props.mk (some PinType.error) ['7'] (some 4) none false 0 none false)]
      (Props.mk (some PinType.error) ['7'] (some 4) none false 0 none false)
      (by decide) (by decide)).2.2

/-! ### Claim C9 -/

/-- Claim C9 counterexample: `type` stays `'error'` across two renders (one
error episode) while the buffer length changes — e.g. the user types during
the error carve-out and the caller applies `onChange` — so the timer
effect's dependency list changes, its body re-runs, and `vibrateOnError`
fires a second time within the same episode. -/
theorem vibrate_once_per_episode_counterexample :
    (Props.mk (some PinType.error) ['1', '2', '3', '4'] (some 4) none false 0 none false).type
      = some PinType.error
    ∧ (Props.mk (some PinType.error) ['5'] (some 4) none false 0 none false).type
      = some PinType.error
    ∧ (run initState
        [Event.render (Props.mk (some PinType.error) ['1', '2', '3', '4'] (some 4) none false 0 none false),
         Event.render (Props.mk (some PinType.error) ['5'] (some 4) none false 0 none false)]).2.count
        Call.vibrateOnError
      = 2 := by
  decide

/-- Claim C9 (amended): on every render that transitions into Error mode —
the previous run of the timer effect (if any) did not see `type = 'error'`,
the current render does — haptic-error feedback fires exactly once at that
render and exactly one timer is armed, with delay `resetStateDelayMs`
(default `RESET_STATE_DELAY_MS = 1500`); within an ongoing error episode the
feedback and timer are re-triggered whenever any dependency of the effect
changes. -/
theorem error_entry_feedback (evs : List Event) (p : Props)
    (hprev : ∀ d, (run initState evs).1.prevDepsD = some d →
      d.type ≠ some PinType.error)
    (hty : p.type = some PinType.error) :
    (stepRender (run initState evs).1 p).2.count Call.vibrateOnError = 1
    ∧ (stepRender (run initState evs).1 p).1.timers
        = [Timer.mk (run initState evs).1.nextId p.resetStateDelayMs
            p.value.length p.length p.onClearErrorId.isSome]
    ∧ RESET_STATE_DELAY_MS = 1500
    ∧ (∀ q : Props, q.resetStateDelayMsOpt = none →
        q.resetStateDelayMs = RESET_STATE_DELAY_MS) := by
  have hinv := inv_reachable evs
  have hd : ¬ (run initState evs).1.prevDepsD = some (depsD p) := by
    intro hc
    exact hprev (depsD p) hc (by simp [depsD, hty])
  obtain ⟨htm, _, _, hcalls⟩ := stepRender_toError (run initState evs).1 p hd hty
  refine ⟨?_, ?_, rfl, fun q hq => by simp [Props.resetStateDelayMs, hq]⟩
  · rw [hcalls, List.count_append]
    have hnA : Call.vibrateOnError ∉
        (if (run initState evs).1.prevDepsA
            = some (depsA (run initState evs).1 p) then []
          else effectABody (run initState evs).1 p) := by
      split
      · simp
      · exact vibrate_not_mem_effectABody _ p
    rw [List.count_eq_zero.mpr hnA]
    rfl
  · rw [htm, clearTimeout_of_inv _ hinv, List.nil_append]
    rfl

/-- Witness for (amended) C9: mounting with `type = 'error'` fires the
haptic exactly once. -/
theorem error_entry_feedback_witness :
    (stepRender (run initState []).1
        (Props.mk (some PinType.error) ['1', '2'] (some 4) none false 0 none false)).2.count
      Call.vibrateOnError = 1 :=
  (error_entry_feedback []
    (Props.mk (some PinType.error) ['1', '2'] (some 4) none false 0 none false)
    (by intro d hd; simp [run, initState] at hd) (by decide)).1

/-! ### Claim C4 -/

/-- Claim C4: when the timer armed on an error render fires, its callback
requests `onChange('')` exactly when the buffer length captured at arming
time equals the configured length (no buffer request otherwise), and it
invokes the caller's `onClearError` exactly once whenever that callback was
provided. -/
theorem error_timer_fire (evs : List Event) (p : Props)
    (hty : p.type = some PinType.error)
    (hd : ¬ (run initState evs).1.prevDepsD = some (depsD p)) :
    (stepFire (stepRender (run initState evs).1 p).1
        (run initState evs).1.nextId).2
      = (if p.value.length = p.length then [Call.change []] else [])
        ++ (if p.onClearErrorId.isSome then [Call.clearError] else [])
    ∧ (p.onClearErrorId.isSome →
        (stepFire (stepRender (run initState evs).1 p).1
            (run initState evs).1.nextId).2.count Call.clearError = 1)
    ∧ (¬ p.value.length = p.length →
        Call.change [] ∉ (stepFire (stepRender (run initState evs).1 p).1
            (run initState evs).1.nextId).2) := by
  have hinv := inv_reachable evs
  obtain ⟨htm, _, _, _⟩ := stepRender_toError (run initState evs).1 p hd hty
  have htm2 : (stepRender (run initState evs).1 p).1.timers
      = [timerOfRender (run initState evs).1 p] := by
    rw [htm, clearTimeout_of_inv _ hinv, List.nil_append]
  have hfind : (stepRender (run initState evs).1 p).1.timers.find?
      (fun t => t.id == (run initState evs).1.nextId)
      = some (timerOfRender (run initState evs).1 p) := by
    rw [htm2]
    simp [List.find?, timerOfRender]
  have hfire : (stepFire (stepRender (run initState evs).1 p).1
      (run initState evs).1.nextId).2
      = fireCalls (timerOfRender (run initState evs).1 p) := by
    unfold stepFire
    rw [hfind]
  refine ⟨?_, ?_, ?_⟩
  · rw [hfire]
    rfl
  · intro hsome
    rw [hfire]
    unfold fireCalls timerOfRender
    simp only [hsome, if_pos rfl]
    split <;> simp [List.count_append, List.count_cons, List.count_nil]
  · intro hne
    rw [hfire]
    unfold fireCalls timerOfRender
    simp only []
    rw [if_neg (by simpa using hne)]
    split <;> simp

/-- Witness for C4: a full 4-digit buffer in error mode with `onClearError`
provided — firing the armed timer requests `onChange('')` and then calls
`onClearError`, each once. -/
theorem error_timer_fire_witness :
    (stepFire (stepRender (run initState []).1
        (Props.mk (some PinType.error) ['1', '2', '3', '4'] (some 4) (some 100) false 0 (some 0) false)).1
        (run initState []).1.nextId).2
      = [Call.change [], Call.clearError]
    ∧ (stepFire (stepRender (run initState []).1
        (Props.mk (some PinType.error) ['1', '2', '3', '4'] (some 4) (some 100) false 0 (some 0) false)).1
        (run initState []).1.nextId).2.count Call.clearError = 1 := by
  refine ⟨?_, ?_⟩
  · have h := (error_timer_fire []
      (Props.mk (some PinType.error) ['1', '2', '3', '4'] (some 4) (some 100) false 0 (some 0) false)
      (by decide) (by decide)).1
    simpa using h
  · exact (error_timer_fire []
      (Props.mk (some PinType.error) ['1', '2', '3', '4'] (some 4) (some 100) false 0 (some 0) false)
      (by decide) (by decide)).2.1 (by decide)

/-! ### Claim C5 -/

/-- Claim C5: when the external accepted flag is `true` at one render and
`false` at the next, the accepted-edge effect re-runs (its dependency list
changed) and requests `onChange('')` exactly when the buffer is full at the
second render; with a non-full buffer no `onChange('')` request is emitted
by that render. -/
theorem accepted_edge (s : CState) (p1 p2 : Props)
    (h1 : p1.isPinAccepted = true) (h2 : p2.isPinAccepted = false) :
    (p2.value.length = p2.length →
      Call.change [] ∈ (stepRender (stepRender s p1).1 p2).2)
    ∧ (¬ p2.value.length = p2.length →
      Call.change [] ∉ (stepRender (stepRender s p1).1 p2).2) := by
  have hsA : (stepRender s p1).1.prevDepsA = some (depsA s p1) := rfl
  have hsAcc : (stepRender s p1).1.prevAccepted = some p1.isPinAccepted := rfl
  have hne : ¬ (stepRender s p1).1.prevDepsA
      = some (depsA (stepRender s p1).1 p2) := by
    rw [hsA]
    intro hcontra
    have hinj : depsA s p1 = depsA (stepRender s p1).1 p2 :=
      Option.some.inj hcontra
    have : p1.isPinAccepted = p2.isPinAccepted := congrArg DepsA.isPinAccepted hinj
    rw [h1, h2] at this
    exact Bool.noConfusion this
  have hcalls : (stepRender (stepRender s p1).1 p2).2
      = effectABody (stepRender s p1).1 p2
        ++ (effectDUpdate (stepRender s p1).1 p2).calls := by
    show (if (stepRender s p1).1.prevDepsA
          = some (depsA (stepRender s p1).1 p2) then []
        else effectABody (stepRender s p1).1 p2)
        ++ (effectDUpdate (stepRender s p1).1 p2).calls
      = effectABody (stepRender s p1).1 p2
        ++ (effectDUpdate (stepRender s p1).1 p2).calls
    rw [if_neg hne]
  constructor
  · intro hfull
    rw [hcalls]
    refine List.mem_append.mpr (Or.inl ?_)
    unfold effectABody
    rw [if_pos ⟨by rw [hsAcc, h1], h2, hfull.symm⟩]
    simp
  · intro hnfull
    rw [hcalls]
    intro hmem
    rcases List.mem_append.mp hmem with hm | hm
    · revert hm
      unfold effectABody
      rw [if_neg (by intro hc; exact hnfull hc.2.2.symm)]
      simp
    · revert hm
      unfold effectDUpdate
      split
      · simp
      · split <;> simp

/-- Witness for C5: accepted flips `true → false` while the 4-digit buffer
is full, so the second render requests `onChange('')`. -/
theorem accepted_edge_witness :
    Call.change [] ∈
      (stepRender
        (stepRender initState
          (Props.mk none ['1', '2', '3', '4'] (some 4) none true 0 none false)).1
        (Props.mk none ['1', '2', '3', '4'] (some 4) none false 0 none false)).2 :=
  (accepted_edge initState
    (Props.mk none ['1', '2', '3', '4'] (some 4) none true 0 none false)
    (Props.mk none ['1', '2', '3', '4'] (some 4) none false 0 none false)
    rfl rfl).1 (by decide)

/-! ### Claim C7 -/

/-- Claim C7: unmounting from any reachable state cancels the pending error
timer (no armed timer survives, so no late `onChange`/`onClearError` can
fire afterwards — firing any handle after unmount performs no calls) and
invokes the `clearIsPinAccepted` action exactly once. -/
theorem unmount_cleanup (evs : List Event) :
    (stepUnmount (run initState evs).1).1.timers = []
    ∧ (stepUnmount (run initState evs).1).2 = [Call.clearIsPinAccepted]
    ∧ (∀ tid : Nat,
        (stepFire (stepUnmount (run initState evs).1).1 tid).2 = []) := by
  have ht : (stepUnmount (run initState evs).1).1.timers = [] :=
    clearTimeout_of_inv _ (inv_reachable evs)
  refine ⟨ht, rfl, ?_⟩
  intro tid
  simp [stepFire, ht, List.find?]

/-! ### Claim C6 -/

/-- Claim C6: while `isSuccess` (`type === 'success'` or the external
accepted flag) holds, the digit grid, the backspace button and the biometric
button are all disabled, so any press is dropped before reaching its
handler: no calls are emitted and the buffer is unchanged. -/
theorem success_gates_input (p : Props) (c : Char) (h : isSuccess p = true) :
    arePinButtonsDisabled p = true
    ∧ backspaceButtonDisabled p = true
    ∧ biometricButtonDisabled p = true
    ∧ pressDigit p c = []
    ∧ pressBackspace p = []
    ∧ pressBiometric p = []
    ∧ applyCalls p.value (pressDigit p c) = p.value
    ∧ applyCalls p.value (pressBackspace p) = p.value := by
  have h1 : arePinButtonsDisabled p = true := by
    simp [arePinButtonsDisabled, h]
  have h2 : backspaceButtonDisabled p = true := by
    simp [backspaceButtonDisabled, h]
  have h4 : pressDigit p c = [] := by simp [pressDigit, h1]
  have h5 : pressBackspace p = [] := by simp [pressBackspace, h2]
  refine ⟨h1, h2, h, h4, h5, ?_, ?_, ?_⟩
  · simp [pressBiometric, biometricButtonDisabled, h]
  · simp [h4, applyCalls]
  · simp [h5, applyCalls]

/-- Witness for C6: a full success-mode pad drops a digit press, a
backspace press and a biometric press. -/
theorem success_gates_input_witness :
    pressDigit (Props.mk (some PinType.success) ['1', '2', '3', '4'] (some 4) none false 0 (some 0) true) '5' = []
    ∧ pressBackspace (Props.mk (some PinType.success) ['1', '2', '3', '4'] (some 4) none false 0 (some 0) true) = []
    ∧ pressBiometric (Props.mk (some PinType.success) ['1', '2', '3', '4'] (some 4) none false 0 (some 0) true) = [] := by
  refine ⟨?_, ?_, ?_⟩
  · exact (success_gates_input
      (Props.mk (some PinType.success) ['1', '2', '3', '4'] (some 4) none false 0 (some 0) true)
      '5' (by decide)).2.2.2.1
  · exact (success_gates_input
      (Props.mk (some PinType.success) ['1', '2', '3', '4'] (some 4) none false 0 (some 0) true)
      '5' (by decide)).2.2.2.2.1
  · exact (success_gates_input
      (Props.mk (some PinType.success) ['1', '2', '3', '4'] (some 4) none false 0 (some 0) true)
      '5' (by decide)).2.2.2.2.2.1

/-! ### Claim C8 -/

/-- Claim C8: in Normal mode with an empty buffer, the backspace button is
disabled (`canRenderBackspace` is false; the button is also hidden), so a
backspace press is a no-op — no callback is invoked and the buffer is
unchanged.  (`handleBackspaceClick` itself would invoke `onClearError` when
provided, but a press never reaches it with an empty buffer.) -/
theorem backspace_empty_noop (p : Props) (_h0 : p.type = none)
    (_h1 : p.isPinAccepted = false) (h2 : p.value = []) :
    backspaceButtonDisabled p = true
    ∧ pressBackspace p = []
    ∧ applyCalls p.value (pressBackspace p) = p.value := by
  have hb : canRenderBackspace p = false := by
    simp [canRenderBackspace, h2]
  have hd : backspaceButtonDisabled p = true := by
    simp [backspaceButtonDisabled, hb]
  have hp : pressBackspace p = [] := by simp [pressBackspace, hd]
  exact ⟨hd, hp, by simp [hp, applyCalls]⟩

/-- Witness for C8: empty buffer, no `type`, flag down — a backspace press
emits nothing. -/
theorem backspace_empty_noop_witness :
    pressBackspace (Props.mk none [] (some 4) none false 0 (some 0) false) = []
    ∧ applyCalls (Props.mk none [] (some 4) none false 0 (some 0) false).value
        (pressBackspace (Props.mk none [] (some 4) none false 0 (some 0) false))
      = (Props.mk none [] (some 4) none false 0 (some 0) false).value := by
  refine ⟨?_, ?_⟩
  · exact (backspace_empty_noop (Props.mk none [] (some 4) none false 0 (some 0) false)
      rfl rfl rfl).2.1
  · exact (backspace_empty_noop (Props.mk none [] (some 4) none false 0 (some 0) false)
      rfl rfl rfl).2.2

/-! ### Claim C10 -/

/-- Claim C10: whenever the buffer is full and `type` is not `'error'`, or
mode is Success, the digit buttons (all ten share `arePinButtonsDisabled`)
are disabled; hence whenever a digit press does go through with a full
buffer — `handleClick`'s replace branch — `type` must be `'error'`. -/
theorem full_buffer_reachability (p : Props) (c : Char) :
    (((p.value.length = p.length ∧ p.type ≠ some PinType.error)
        ∨ isSuccess p = true) → arePinButtonsDisabled p = true)
    ∧ (arePinButtonsDisabled p = false → p.value.length = p.length →
        p.type = some PinType.error)
    ∧ (arePinButtonsDisabled p = false → pressDigit p c = handleClick p c) := by
  refine ⟨?_, ?_, ?_⟩
  · rintro (⟨hf, ht⟩ | hs)
    · simp [arePinButtonsDisabled, hf, ht]
    · simp [arePinButtonsDisabled, hs]
  · intro hfalse hfull
    by_contra hne
    rw [arePinButtonsDisabled] at hfalse
    simp [hfull, hne] at hfalse
  · intro hfalse
    simp [pressDigit, hfalse]

/-- Witness for C10: with a full buffer and the pad enabled (possible only
in error mode), the press reaches `handleClick` and replaces the buffer. -/
theorem full_buffer_reachability_witness :
    Props.type (Props.mk (some PinType.error) ['1', '2', '3', '4'] (some 4) none false 0 none false)
      = some PinType.error
    ∧ pressDigit (Props.mk (some PinType.error) ['1', '2', '3', '4'] (some 4) none false 0 none false) '9'
      = handleClick (Props.mk (some PinType.error) ['1', '2', '3', '4'] (some 4) none false 0 none false) '9' := by
  refine ⟨?_, ?_⟩
  · exact (full_buffer_reachability
      (Props.mk (some PinType.error) ['1', '2', '3', '4'] (some 4) none false 0 none false) '9').2.1
      (by decide) (by decide)
  · exact (full_buffer_reachability
      (Props.mk (some PinType.error) ['1', '2', '3', '4'] (some 4) none false 0 none false) '9').2.2
      (by decide)

end PinPad
